import Mathlib

/-!
Verification of the CameraHandApp hand-tracking core: a shallow embedding of
the gesture classifier (`src/utils/gestureDetection.ts`), the pointer
stabilizer (`src/components/VirtualCursor.tsx`), the hit test
(`src/utils/geometry.ts`) and the three per-frame interaction machines
(`DemoButtons`, `InteractiveElements`, `DrawingCanvas`), together with
theorems settling the spec's claims about them.

Modelling conventions: JavaScript numbers are modelled as rationals where the
code only adds, multiplies and compares (screen-space pixel arithmetic), and
as reals where the code takes square roots (the classifier's distances).
Each React effect body is modelled as one step function executed once per
frame; `useState` values are read as the frame's snapshot and written into
the returned state, while `useRef` cells (which the source mutates and reads
sequentially inside one effect run) are threaded sequentially through the
step.  `setTimeout` callbacks are modelled as explicit timer events.
-/

namespace CameraHandApp

/-- A 2D point in screen pixel space (the `{x, y}` objects of the source). -/
structure Pt where
  x : ℚ
  y : ℚ
deriving DecidableEq

/-- `Rect` from `src/utils/geometry.ts`. -/
structure Rect where
  x : ℚ
  y : ℚ
  width : ℚ
  height : ℚ
deriving DecidableEq

/-- `inRect` from `src/utils/geometry.ts`:
`p.x >= r.x && p.x <= r.x + r.width && p.y >= r.y && p.y <= r.y + r.height`. -/
def inRect (p : Pt) (r : Rect) : Bool :=
  decide (r.x ≤ p.x) && decide (p.x ≤ r.x + r.width) &&
  decide (r.y ≤ p.y) && decide (p.y ≤ r.y + r.height)

/-! ## Gesture classifier (`src/utils/gestureDetection.ts`) -/

/-- `HandLandmark` from `src/hooks/useHandTracking.ts`: normalized x, y and an
optional relative depth z. -/
structure HandLandmark where
  x : ℝ
  y : ℝ
  z : Option ℝ

/-- The value the classifier reads for the optional depth: `p.z || 0`. -/
def zv (p : HandLandmark) : ℝ := p.z.getD 0

/-- Handedness tag of a detected hand. -/
inductive Handedness where
  | left
  | right

/-- `HandData`: the detector delivers exactly 21 landmarks at fixed anatomical
indices (`processHandResults` drops observations whose landmark count is not
21), a handedness tag and a confidence score. -/
structure HandData where
  landmarks : Fin 21 → HandLandmark
  handedness : Handedness
  score : ℝ

/-- `PINCH_DIST = 0.08`. -/
noncomputable def PINCH_DIST : ℝ := 8/100

/-- `Z_WEIGHT = 1.35`. -/
noncomputable def Z_WEIGHT : ℝ := 135/100

/-- The curl threshold constant of the source (named after the curl cutoff
value `1.3` there). -/
noncomputable def CURL_LIMIT : ℝ := 13/10

/-- `MIN_CURLED = 3`. -/
def MIN_CURLED : ℕ := 3

/-- The z-weighted thumb-tip-to-index-tip distance computed by
`detectPinchGesture` (landmarks 4 and 8; `Math.sqrt(dx*dx + dy*dy + dz*dz)`
with `dz` scaled by `Z_WEIGHT`). -/
noncomputable def pinchDistance (h : HandData) : ℝ :=
  let thumbTip := h.landmarks 4
  let indexTip := h.landmarks 8
  let dx := thumbTip.x - indexTip.x
  let dy := thumbTip.y - indexTip.y
  let dz := (zv thumbTip - zv indexTip) * Z_WEIGHT
  Real.sqrt (dx * dx + dy * dy + dz * dz)

/-- The 3D distance to the wrist used by the fist detector:
`Math.sqrt(Math.pow(p.x-w.x,2) + Math.pow(p.y-w.y,2) + Math.pow((p.z||0)-(w.z||0),2))`. -/
noncomputable def distToWrist (p w : HandLandmark) : ℝ :=
  Real.sqrt ((p.x - w.x)^2 + (p.y - w.y)^2 + (zv p - zv w)^2)

/-- The JavaScript comparison `tipDist / mcpDist < CURL_RATIO` on IEEE
doubles.  Both operands are square roots, hence nonnegative; when the
denominator is zero the quotient is `NaN` (for `0/0`) or `+Infinity`, and in
both cases the comparison evaluates to false.  The real-valued model
therefore additionally requires a nonzero denominator. -/
def extensionLt (tipDist mcpDist bound : ℝ) : Prop :=
  mcpDist ≠ 0 ∧ tipDist / mcpDist < bound

/-- The `fingerTips` array of `detectPinchGesture`: landmarks 8, 12, 16, 20. -/
def fingerTips (h : HandData) : List HandLandmark :=
  [h.landmarks 8, h.landmarks 12, h.landmarks 16, h.landmarks 20]

/-- The `fingerMCPs` array of `detectPinchGesture`: landmarks 5, 9, 13, 17. -/
def fingerMCPs (h : HandData) : List HandLandmark :=
  [h.landmarks 5, h.landmarks 9, h.landmarks 13, h.landmarks 17]

open Classical in
/-- The `curledCount` loop of `detectPinchGesture`: for each of the four
non-thumb fingers, increment when the tip-to-wrist over knuckle-to-wrist
extension quotient is below the curl threshold. -/
noncomputable def curledCount (h : HandData) : ℕ :=
  (List.zip (fingerTips h) (fingerMCPs h)).foldl
    (fun acc tm =>
      if extensionLt (distToWrist tm.1 (h.landmarks 0))
          (distToWrist tm.2 (h.landmarks 0)) CURL_LIMIT
      then acc + 1 else acc) 0

/-- `GestureState` from `src/utils/gestureDetection.ts` (the two booleans are
modelled as propositions over the reals). -/
structure GestureState where
  isPinching : Prop
  pinchStrength : ℝ
  isFist : Prop

/-- `detectPinchGesture`, the pure gesture classifier. -/
noncomputable def detectPinchGesture (h : HandData) : GestureState :=
  { isPinching := pinchDistance h < PINCH_DIST
    pinchStrength := max 0 (min 1 (1 - pinchDistance h / PINCH_DIST))
    isFist := MIN_CURLED ≤ curledCount h }

/-- Anatomical index of each non-thumb finger tip, in the order the source
lists them (index, middle, ring, pinky). -/
def tipIdx : Fin 4 → Fin 21
  | 0 => 8
  | 1 => 12
  | 2 => 16
  | 3 => 20

/-- Anatomical index of each non-thumb finger MCP knuckle, in source order. -/
def mcpIdx : Fin 4 → Fin 21
  | 0 => 5
  | 1 => 9
  | 2 => 13
  | 3 => 17

/-- Spec formulation of a curled finger: the ratio of the finger's
tip-to-wrist distance to its knuckle-to-wrist distance is well defined
(nonzero knuckle-to-wrist distance) and strictly below the curl threshold
1.3. -/
noncomputable def specCurled (h : HandData) (i : Fin 4) : Prop :=
  distToWrist (h.landmarks (mcpIdx i)) (h.landmarks 0) ≠ 0 ∧
  distToWrist (h.landmarks (tipIdx i)) (h.landmarks 0) /
      distToWrist (h.landmarks (mcpIdx i)) (h.landmarks 0) < 13/10

open Classical in
/-- Spec formulation of the fist count: how many of the four non-thumb
fingers are curled. -/
noncomputable def specCurledCount (h : HandData) : ℕ :=
  (Finset.univ.filter fun i : Fin 4 => specCurled h i).card

/-! ## Pointer stabilizer (`src/components/VirtualCursor.tsx`) -/

/-- `SMOOTHING = 0.3`. -/
def SMOOTHING : ℚ := 3/10

/-- `BUFFER_SIZE = 3`. -/
def BUFFER_SIZE : ℕ := 3

/-- The per-frame hand input consumed by `VirtualCursor` when a hand is
present: the index-tip landmark's normalized position, and the two booleans
`detectPinchGesture` derives from the full hand (the classifier itself is
modelled over the reals above; its boolean results enter the rational-valued
per-frame step as inputs). -/
structure CHand where
  tipX : ℚ
  tipY : ℚ
  gPinch : Bool
  gFist : Bool
deriving DecidableEq

/-- Component state of `VirtualCursor`: the persisted smoothed position
(`cursorPos`), visibility, the two reported gesture booleans, the raw-sample
ring buffer (capacity 3) and the `gesturesOn` re-arming flag. -/
structure CState where
  cursorPos : Pt
  visible : Bool
  pinching : Bool
  fist : Bool
  buffer : List Pt
  gesturesOn : Bool
deriving DecidableEq

/-- What one `VirtualCursor` frame reports to consumers through
`onPosChange`, `onPinch` and `onFist`. -/
structure CEmit where
  pos : Pt
  posVisible : Bool
  pinch : Bool
  fist : Bool
deriving DecidableEq

/-- One frame of the `VirtualCursor` effect.  `W`, `H` are
`window.innerWidth` and `window.innerHeight`; `withinGrace` models the
real-time test `lastSeen > 0 && now - lastSeen < COOLDOWN` of the hand-loss
branch (the 150ms re-arming grace window), and the scheduled re-enabling of
`gesturesOn` is the separate event `gesturesTimerFire`. -/
def cursorStep (W H : ℚ) (inp : Option CHand) (withinGrace : Bool)
    (s : CState) : CState × CEmit :=
  match inp with
  | none =>
      ({ cursorPos := s.cursorPos
         visible := false
         pinching := false
         fist := false
         buffer := []
         gesturesOn := if withinGrace then false else s.gesturesOn },
       { pos := ⟨0, 0⟩, posVisible := false, pinch := false, fist := false })
  | some hand =>
      let rawX := (1 - hand.tipX) * W
      let rawY := hand.tipY * H
      let pushed := s.buffer ++ [⟨rawX, rawY⟩]
      let buf := if BUFFER_SIZE < pushed.length then pushed.tail else pushed
      let avgX := (buf.map Pt.x).sum / (buf.length : ℚ)
      let avgY := (buf.map Pt.y).sum / (buf.length : ℚ)
      let smoothX := s.cursorPos.x + (avgX - s.cursorPos.x) * SMOOTHING
      let smoothY := s.cursorPos.y + (avgY - s.cursorPos.y) * SMOOTHING
      let pin := if s.gesturesOn then hand.gPinch else false
      let fi := if s.gesturesOn then hand.gFist else false
      ({ cursorPos := ⟨smoothX, smoothY⟩
         visible := true
         pinching := pin
         fist := fi
         buffer := buf
         gesturesOn := s.gesturesOn },
       { pos := ⟨smoothX, smoothY⟩, posVisible := true, pinch := pin, fist := fi })

/-- The 150ms `setTimeout` of the hand-loss branch firing: re-enables gesture
reporting. -/
def gesturesTimerFire (s : CState) : CState := { s with gesturesOn := true }

/-! ## Clickable demo buttons (`DemoButtons`, `src/components/Buttons.tsx`) -/

/-- A `Button` of `DemoButtons`: a rectangle plus identity and action tag. -/
structure Button where
  id : String
  x : ℚ
  y : ℚ
  width : ℚ
  height : ℚ
  action : String
deriving DecidableEq

/-- The rectangle fields of a button (`Button extends Rect`). -/
def Button.toRect (b : Button) : Rect := ⟨b.x, b.y, b.width, b.height⟩

/-- The four buttons declared by `DemoButtons`. -/
def demoButtons : List Button :=
  [⟨"1", 50, 150, 160, 80, "add-box"⟩,
   ⟨"2", 50, 250, 160, 80, "clear-all"⟩,
   ⟨"3", 50, 350, 160, 80, "random-colors"⟩,
   ⟨"4", 50, 450, 160, 80, "toggle-draw"⟩]

/-- Per-frame input of `DemoButtons`. -/
structure DInput where
  handDetected : Bool
  pinching : Bool
  fist : Bool
  cursor : Pt
deriving DecidableEq

/-- Mutable state of `DemoButtons`: the previous frame's pinch boolean and
the per-target cooldown record (`cooldown[id]`; absent keys read as false). -/
structure DState where
  lastPinch : Bool
  cooldown : String → Bool

/-- The hover computation of `DemoButtons` (its first effect): the first
declared button whose rectangle contains the cursor, none when no hand. -/
def demoHover (buttons : List Button) (i : DInput) : Option Button :=
  if i.handDetected then buttons.find? (fun b => inRect i.cursor b.toRect)
  else none

/-- One frame of the `DemoButtons` click effect: on a pinch rising edge over
a hovered button that is not in cooldown, and with no simultaneous fist,
emit the button's click and latch its cooldown.  The 500ms `setTimeout`
clearing the latch is the separate event `DEvent.fire`. -/
def demoStep (buttons : List Button) (i : DInput) (s : DState) :
    DState × Option String :=
  match demoHover buttons i with
  | some b =>
      if i.pinching && !s.lastPinch && !s.cooldown b.id && !i.fist then
        ({ lastPinch := i.pinching
           cooldown := fun t => if t = b.id then true else s.cooldown t },
         some b.id)
      else ({ s with lastPinch := i.pinching }, none)
  | none => ({ s with lastPinch := i.pinching }, none)

/-- An event in a `DemoButtons` run: a rendered frame, or the 500ms cooldown
timer scheduled for a target firing. -/
inductive DEvent where
  | frame (i : DInput)
  | fire (id : String)
deriving DecidableEq

/-- Whether an event is a rendered frame. -/
def DEvent.isFrame : DEvent → Bool
  | .frame _ => true
  | .fire _ => false

/-- Apply one `DemoButtons` event; a frame may emit a click. -/
def demoApply (buttons : List Button) (e : DEvent) (s : DState) :
    DState × Option String :=
  match e with
  | .frame i => demoStep buttons i s
  | .fire id =>
      ({ s with cooldown := fun t => if t = id then false else s.cooldown t },
       none)

/-- Run a sequence of `DemoButtons` events, collecting clicked ids in order. -/
def demoRun (buttons : List Button) (evs : List DEvent) (s : DState) :
    DState × List String :=
  match evs with
  | [] => (s, [])
  | e :: rest =>
      let r := demoApply buttons e s
      let r2 := demoRun buttons rest r.1
      (r2.1, r.2.toList ++ r2.2)

/-- Initial `DemoButtons` state. -/
def dInit : DState := { lastPinch := false, cooldown := fun _ => false }

/-! ## Draggable notes (`src/components/InteractiveElements.tsx`) -/

/-- `DraggableBox`. -/
structure Box where
  id : ℕ
  x : ℚ
  y : ℚ
  width : ℚ
  height : ℚ
  color : String
  label : String
  text : String
deriving DecidableEq

/-- The rectangle fields of a box. -/
def Box.toRect (b : Box) : Rect := ⟨b.x, b.y, b.width, b.height⟩

/-- Per-frame input of `InteractiveElements`. -/
structure IInput where
  handDetected : Bool
  fist : Bool
  pinching : Bool
  cursor : Pt
deriving DecidableEq

/-- Mutable state of `InteractiveElements`: the optional drag session
(target id and grab offset), the optional edit session, the previous frame's
gesture booleans, a pending 100ms deferred drag-release timer and a pending
400ms hold-to-edit timer with its target. -/
structure IState where
  draggedBox : Option ℕ
  dragOffset : Pt
  editingBox : Option ℕ
  lastFist : Bool
  lastPinch : Bool
  fistTimer : Bool
  pinchTimer : Option ℕ
deriving DecidableEq

/-- One frame of the `InteractiveElements` gesture effect.  React state
(`draggedBox`, `dragOffset`, `editingBox`) is read as the frame's snapshot;
the refs (`lastFistState`, `lastPinchState`, the timer handles) are threaded
sequentially exactly as the effect mutates them.  Returns the new state and
the box list handed to `onBoxesChange` (unchanged when the drag update does
not run). -/
def interactiveStep (i : IInput) (boxes : List Box) (s : IState) :
    IState × List Box :=
  if !i.handDetected then
    ({ s with draggedBox := none, lastFist := false, lastPinch := false,
              fistTimer := false, pinchTimer := none }, boxes)
  else
    let fistRise := i.fist && !s.lastFist
    let fistFall := !i.fist && s.lastFist
    let hovered := boxes.find? (fun b => inRect i.cursor b.toRect)
    let t1 : Bool := if fistRise then false else s.fistTimer
    let engage : Option Box := if fistRise then hovered else none
    let dragged1 := match engage with | some b => some b.id | none => s.draggedBox
    let offset1 := match engage with
      | some b => (⟨i.cursor.x - b.x, i.cursor.y - b.y⟩ : Pt)
      | none => s.dragOffset
    let editing1 := match engage with | some _ => none | none => s.editingBox
    let t2 : Bool :=
      if fistFall && decide (s.draggedBox ≠ none) && decide (s.editingBox = none)
      then true else t1
    let t3 : Bool := if i.fist && t2 then false else t2
    let boxes2 :=
      match s.draggedBox, s.editingBox with
      | some target, none =>
          boxes.map (fun b =>
            if b.id = target then
              { b with x := i.cursor.x - s.dragOffset.x,
                       y := i.cursor.y - s.dragOffset.y }
            else b)
      | _, _ => boxes
    let pinchRise := i.pinching && !s.lastPinch
    let pinchFall := !i.pinching && s.lastPinch
    let p1 : Option ℕ :=
      if pinchRise && !i.fist then
        match hovered with
        | some b => if s.editingBox ≠ some b.id then some b.id else s.pinchTimer
        | none => s.pinchTimer
      else s.pinchTimer
    let p2 : Option ℕ := if pinchFall then none else p1
    ({ draggedBox := dragged1, dragOffset := offset1, editingBox := editing1,
       lastFist := i.fist, lastPinch := i.pinching, fistTimer := t3,
       pinchTimer := p2 }, boxes2)

/-- The 100ms deferred drag-release timer firing. -/
def fistTimerFire (s : IState) : IState :=
  if s.fistTimer then { s with draggedBox := none, fistTimer := false } else s

/-- The 400ms hold-to-edit timer firing. -/
def pinchTimerFire (s : IState) : IState :=
  match s.pinchTimer with
  | some b => { s with editingBox := some b, draggedBox := none, pinchTimer := none }
  | none => s

/-- Run `InteractiveElements` over consecutive frames, feeding each frame's
`onBoxesChange` output back as the next frame's box list, as `App` does. -/
def interactiveRun (frames : List IInput) (boxes : List Box) (s : IState) :
    IState × List Box :=
  match frames with
  | [] => (s, boxes)
  | i :: rest =>
      let r := interactiveStep i boxes s
      interactiveRun rest r.2 r.1

/-- Initial `InteractiveElements` state. -/
def iInit : IState :=
  { draggedBox := none, dragOffset := ⟨0, 0⟩, editingBox := none,
    lastFist := false, lastPinch := false, fistTimer := false,
    pinchTimer := none }

/-! ## Freehand drawing (`src/components/DrawingCanvas.tsx`) -/

/-- One captured stroke point. -/
structure DrawPoint where
  x : ℚ
  y : ℚ
  color : String
  size : ℚ
deriving DecidableEq

/-- `DrawStroke`: a completed polyline with its color and size. -/
structure DrawStroke where
  points : List DrawPoint
  color : String
  size : ℚ
deriving DecidableEq

/-- The toolbar colors of `DrawingCanvas`. -/
def drawColors : List String :=
  ["#FF6B6B", "#4ECDC4", "#45B7D1", "#FFA07A", "#98D8C8", "#000000", "#FFFFFF"]

/-- The toolbar brush sizes of `DrawingCanvas`. -/
def drawSizes : List ℚ := [3, 5, 8, 12]

/-- A hovered toolbar control (the string ids produced by the hover effect:
exit, clear, color-i, size-i, with the index already parsed). -/
inductive ToolButton where
  | exit
  | clear
  | color (j : ℕ)
  | size (j : ℕ)
deriving DecidableEq

/-- State of `DrawingCanvas`. -/
structure DrawState where
  strokes : List DrawStroke
  currentStroke : List DrawPoint
  isDrawing : Bool
  brushColor : String
  brushSize : ℚ
  lastPinch : Bool
  lastClick : Bool
deriving DecidableEq

/-- Per-frame input of `DrawingCanvas`; `hoveredButton` is the result of the
DOM-rectangle hover test of the first effect (the toolbar rectangles live in
the DOM, so hover enters the model as an input). -/
structure DrawInput where
  drawingMode : Bool
  handDetected : Bool
  pinching : Bool
  cursor : Pt
  hoveredButton : Option ToolButton
deriving DecidableEq

/-- What a toolbar click performs (`exitDraw` is the `onExit` callback). -/
inductive ToolAction where
  | exitDraw
  | pickColor (j : ℕ)
  | pickSize (j : ℕ)
  | clearAll
deriving DecidableEq

/-- One frame of the toolbar click effect of `DrawingCanvas` (its second
effect): a pinch rising edge (tracked by `lastClickState`) over a hovered
control fires the control's action — with no cooldown latch and no fist
input at all.  The early return on `!isDrawingMode || !hoveredButton` skips
the `lastClickState` update.  Hover only ever produces indices inside the
color and size arrays, so the list defaults are never read. -/
def toolbarStep (i : DrawInput) (s : DrawState) : DrawState × Option ToolAction :=
  if !i.drawingMode then (s, none)
  else
    match i.hoveredButton with
    | none => (s, none)
    | some b =>
        if i.pinching && !s.lastClick then
          match b with
          | .exit => ({ s with lastClick := i.pinching }, some .exitDraw)
          | .color j =>
              ({ s with brushColor := drawColors.getD j ("undefined"),
                        lastClick := i.pinching }, some (.pickColor j))
          | .size j =>
              ({ s with brushSize := drawSizes.getD j 0,
                        lastClick := i.pinching }, some (.pickSize j))
          | .clear =>
              ({ s with strokes := [], currentStroke := [],
                        lastClick := i.pinching }, some .clearAll)
        else ({ s with lastClick := i.pinching }, none)

/-- One frame of the stroke-capture effect of `DrawingCanvas` (its third
effect).  On exit from drawing mode or on hand loss, an in-progress stroke
is committed whenever the buffer is nonempty and drawing stops (this early
return skips the `lastPinchState` update); otherwise a pinch rising edge
starts a stroke at the cursor, a held pinch appends the cursor to the
snapshot buffer, and a pinch falling edge commits the buffer — whenever it
is nonempty (`currentStroke.length > 0`) — as a stroke and clears it. -/
def drawStep (i : DrawInput) (s : DrawState) : DrawState :=
  if !i.drawingMode || !i.handDetected then
    if s.isDrawing then
      if decide (0 < s.currentStroke.length) then
        { s with strokes := s.strokes ++ [⟨s.currentStroke, s.brushColor, s.brushSize⟩],
                 currentStroke := [], isDrawing := false }
      else { s with isDrawing := false }
    else s
  else
    let pt : DrawPoint := ⟨i.cursor.x, i.cursor.y, s.brushColor, s.brushSize⟩
    let rising := i.pinching && !s.lastPinch
    let appending := i.pinching && s.isDrawing
    let falling := !i.pinching && s.lastPinch && s.isDrawing
    let committing := falling && decide (0 < s.currentStroke.length)
    let current1 :=
      if committing then []
      else if appending then s.currentStroke ++ [pt]
      else if rising then [pt]
      else s.currentStroke
    let strokes1 :=
      if committing then s.strokes ++ [⟨s.currentStroke, s.brushColor, s.brushSize⟩]
      else s.strokes
    let drawing1 := if falling then false else if rising then true else s.isDrawing
    { s with strokes := strokes1, currentStroke := current1,
             isDrawing := drawing1, lastPinch := i.pinching }

/-- Run consecutive `DrawingCanvas` stroke-capture frames. -/
def drawRun (frames : List DrawInput) (s : DrawState) : DrawState :=
  frames.foldl (fun st i => drawStep i st) s

/-- The canvas renderer's per-stroke guard
(`if (stroke.points.length < 2) return;`): a committed stroke is drawn only
when it has at least two points. -/
def strokeRendered (st : DrawStroke) : Bool :=
  decide (2 ≤ st.points.length)

/-- The initial `DrawingCanvas` state (the `useState` initializers). -/
def drawInit : DrawState :=
  { strokes := [], currentStroke := [], isDrawing := false,
    brushColor := "#FF6B6B", brushSize := 5, lastPinch := false,
    lastClick := false }

/-! ## Per-finger curl condition (named form of the loop body) -/

/-- The loop-body condition of `detectPinchGesture` for non-thumb finger
`i`: the JavaScript test `tipToWristDist / mcpToWristDist < CURL_RATIO`. -/
noncomputable def fingerCurled (h : HandData) (i : Fin 4) : Prop :=
  extensionLt (distToWrist (h.landmarks (tipIdx i)) (h.landmarks 0))
    (distToWrist (h.landmarks (mcpIdx i)) (h.landmarks 0)) CURL_LIMIT

/-! ## Concrete observations and frames used to instantiate the theorems -/

/-- A hand for which the classifier reports pinch and fist simultaneously:
the wrist at the origin and every other landmark at (0.5, 0).  Thumb tip and
index tip coincide (pinch distance 0) and every finger tip sits exactly on
its knuckle (extension quotient 1 < 1.3, all four fingers curled). -/
noncomputable def hBoth : HandData :=
  ⟨fun i => if i = 0 then ⟨0, 0, none⟩ else ⟨1/2, 0, none⟩, .right, 1⟩

/-- A hand whose thumb tip and index tip coincide: pinch distance 0. -/
noncomputable def hNear : HandData := ⟨fun _ => ⟨0, 0, none⟩, .right, 1⟩

/-- A hand whose thumb tip is at the origin and whose index tip is at
(0.06, 0.08): pinch distance exactly 0.1, beyond the 0.08 threshold. -/
noncomputable def hFar : HandData :=
  ⟨fun i => if i = 4 then ⟨0, 0, none⟩ else ⟨6/100, 8/100, none⟩, .right, 1⟩

/-- A degenerate hand whose index-finger MCP knuckle (landmark 5) coincides
exactly with the wrist (landmark 0). -/
noncomputable def hDegen : HandData :=
  ⟨fun i => if i.val ≤ 5 then ⟨0, 0, none⟩ else ⟨1, 0, none⟩, .left, 1⟩

/-- A drawing-mode frame with the pinch condition raised (the frame on which
the classifier reported pinch and fist: `DrawingCanvas` receives only the
pinch boolean). -/
def pinchFrame : DrawInput := ⟨true, true, true, ⟨100, 100⟩, none⟩

/-- The following frame with the pinch released. -/
def releaseFrame : DrawInput := ⟨true, true, false, ⟨100, 100⟩, none⟩

/-- A pinch-raised drawing-mode frame hovering the toolbar's clear control. -/
def clearHoverFrame : DrawInput := ⟨true, true, true, ⟨100, 100⟩, some .clear⟩

/-- A note at (20, 30), 200 by 250 pixels. -/
def testBoxes : List Box := [⟨1, 20, 30, 200, 250, "#FFF9C4", "Note 1", ""⟩]

/-- A drag-session frame: fist held, cursor at (110, 120). -/
def dragInput : IInput := ⟨true, true, false, ⟨110, 120⟩⟩

/-- A state with an active drag of box 1 grabbed at offset (10, 20). -/
def dragS : IState :=
  { draggedBox := some 1, dragOffset := ⟨10, 20⟩, editingBox := none,
    lastFist := true, lastPinch := false, fistTimer := false,
    pinchTimer := none }

/-- Box 1 as the drag update repositions it for `dragInput` and `dragS`. -/
def draggedResultBox : Box := ⟨1, 100, 100, 200, 250, "#FFF9C4", "Note 1", ""⟩

/-- A pinch rising-edge frame over demo button 1 (rect 50..210 x 150..230). -/
def edgeOverB1 : DInput := ⟨true, true, false, ⟨100, 180⟩⟩

/-- The first demo button. -/
def btn1 : Button := ⟨"1", 50, 150, 160, 80, "add-box"⟩

/-- A `DemoButtons` state in which button 2 is in cooldown. -/
def cool2 : DState :=
  { lastPinch := false, cooldown := fun u => if u = "2" then true else false }

/-- The following frame over the same button with the pinch released. -/
def releaseOverB1 : DInput := ⟨true, false, false, ⟨100, 180⟩⟩

/-- A pinch rising-edge frame carrying a simultaneous fist, over button 1. -/
def fistFrameD : DInput := ⟨true, true, true, ⟨100, 180⟩⟩

/-- A pinch rising-edge frame carrying a simultaneous fist, over the test
note. -/
def fistFrameI : IInput := ⟨true, true, true, ⟨25, 35⟩⟩

/-- A button far away from the probe point. -/
def btnA : Button := ⟨"a", 1000, 1000, 10, 10, "x-action"⟩

/-- First of two overlapping buttons containing the probe point. -/
def btnB : Button := ⟨"b", 50, 50, 100, 100, "y-action"⟩

/-- Second of two overlapping buttons containing the probe point. -/
def btnC : Button := ⟨"c", 60, 60, 100, 100, "z-action"⟩

/-- A frame whose cursor (70, 70) lies inside both `btnB` and `btnC`. -/
def overlapInput : DInput := ⟨true, false, false, ⟨70, 70⟩⟩

/-- A mid-session drawing state whose in-progress buffer holds exactly one
point (the state reached from `drawInit` by one `pinchFrame`). -/
def sOnePoint : DrawState :=
  { strokes := [], currentStroke := [⟨100, 100, "#FF6B6B", 5⟩],
    isDrawing := true, brushColor := "#FF6B6B", brushSize := 5,
    lastPinch := true, lastClick := false }

/-! ## Helper lemmas -/

/-- Square roots of recognized squares. -/
lemma sqrtOfMulSelf (q r : ℝ) (hq : q = r * r) (hr : 0 ≤ r) :
    Real.sqrt q = r := by
  rw [hq]
  exact Real.sqrt_mul_self hr

/-- The two pinch landmarks of `hBoth` coincide, so its pinch distance is 0. -/
lemma pinchDistance_hBoth : pinchDistance hBoth = 0 := by
  have h4 : hBoth.landmarks 4 = ⟨1/2, 0, none⟩ := by simp [hBoth]
  have h8 : hBoth.landmarks 8 = ⟨1/2, 0, none⟩ := by simp [hBoth]
  simp [pinchDistance, h4, h8, zv]

/-- All landmarks of `hNear` coincide, so its pinch distance is 0. -/
lemma pinchDistance_hNear : pinchDistance hNear = 0 := by
  simp [pinchDistance, hNear, zv]

/-- The pinch landmarks of `hFar` are 0.1 apart (a 3-4-5 triangle scaled by
1/50). -/
lemma pinchDistance_hFar : pinchDistance hFar = 1/10 := by
  have h4 : hFar.landmarks 4 = ⟨0, 0, none⟩ := by simp [hFar]
  have h8 : hFar.landmarks 8 = ⟨6/100, 8/100, none⟩ := by simp [hFar]
  simp only [pinchDistance, h4, h8, zv, Option.getD_none]
  exact sqrtOfMulSelf _ _ (by norm_num) (by norm_num)

/-- Each code-side loop condition is the spec-side curl condition (the two
unfold to the same proposition). -/
lemma fingerCurled_iff_specCurled (h : HandData) (i : Fin 4) :
    fingerCurled h i ↔ specCurled h i := Iff.rfl

/-- The loop count of `detectPinchGesture` agrees with the spec-side count
of curled fingers. -/
lemma curledCount_eq_spec (h : HandData) : curledCount h = specCurledCount h := by
  classical
  have r0 : extensionLt (distToWrist (h.landmarks 8) (h.landmarks 0))
      (distToWrist (h.landmarks 5) (h.landmarks 0)) CURL_LIMIT = specCurled h 0 := rfl
  have r1 : extensionLt (distToWrist (h.landmarks 12) (h.landmarks 0))
      (distToWrist (h.landmarks 9) (h.landmarks 0)) CURL_LIMIT = specCurled h 1 := rfl
  have r2 : extensionLt (distToWrist (h.landmarks 16) (h.landmarks 0))
      (distToWrist (h.landmarks 13) (h.landmarks 0)) CURL_LIMIT = specCurled h 2 := rfl
  have r3 : extensionLt (distToWrist (h.landmarks 20) (h.landmarks 0))
      (distToWrist (h.landmarks 17) (h.landmarks 0)) CURL_LIMIT = specCurled h 3 := rfl
  rw [specCurledCount, Finset.card_filter, Fin.sum_univ_four]
  simp only [curledCount, fingerTips, fingerMCPs, List.zip_cons_cons,
    List.zip_nil_right, List.foldl_cons, List.foldl_nil, r0, r1, r2, r3]
  by_cases c0 : specCurled h 0 <;> by_cases c1 : specCurled h 1 <;>
    by_cases c2 : specCurled h 2 <;> by_cases c3 : specCurled h 3 <;>
    simp [c0, c1, c2, c3]

/-- The distance from any landmark of `hBoth` other than the wrist to the
wrist is 1/2. -/
lemma distToWrist_hBoth :
    distToWrist (⟨1/2, 0, none⟩ : HandLandmark) ⟨0, 0, none⟩ = 1/2 := by
  simp only [distToWrist, zv, Option.getD_none]
  exact sqrtOfMulSelf _ _ (by norm_num) (by norm_num)

/-- All four fingers of `hBoth` are curled (extension quotient exactly 1). -/
lemma specCurled_hBoth (i : Fin 4) : specCurled hBoth i := by
  have hw : hBoth.landmarks 0 = ⟨0, 0, none⟩ := by simp [hBoth]
  have ht : hBoth.landmarks (tipIdx i) = ⟨1/2, 0, none⟩ := by
    fin_cases i <;> simp [hBoth, tipIdx]
  have hm2 : hBoth.landmarks (mcpIdx i) = ⟨1/2, 0, none⟩ := by
    fin_cases i <;> simp [hBoth, mcpIdx]
  show distToWrist (hBoth.landmarks (mcpIdx i)) (hBoth.landmarks 0) ≠ 0 ∧
    distToWrist (hBoth.landmarks (tipIdx i)) (hBoth.landmarks 0) /
      distToWrist (hBoth.landmarks (mcpIdx i)) (hBoth.landmarks 0) < 13/10
  rw [ht, hm2, hw, distToWrist_hBoth]
  norm_num

/-- All four fingers of `hBoth` count as curled. -/
lemma specCurledCount_hBoth : specCurledCount hBoth = 4 := by
  classical
  rw [specCurledCount, Finset.filter_true_of_mem fun i _ => specCurled_hBoth i]
  simp

/-- A member of the drag update's mapped box list that carries the dragged
id is at exactly the written position. -/
lemma drag_map_mem {boxes : List Box} {target : ℕ} {nx ny : ℚ} {b : Box}
    (hb : b ∈ boxes.map (fun a =>
      if a.id = target then { a with x := nx, y := ny } else a))
    (hid : b.id = target) : b.x = nx ∧ b.y = ny := by
  rcases List.mem_map.1 hb with ⟨a, _, rfl⟩
  by_cases h : a.id = target
  · simp [h]
  · simp only [if_neg h] at hid ⊢
    exact absurd hid h

/-- Any frame with a hand, an active drag session and no edit session
repositions every box carrying the dragged id to pointer minus grab offset. -/
lemma interactiveStep_drag_pos (i : IInput) (boxes : List Box) (s : IState)
    (target : ℕ) (hh : i.handDetected = true)
    (hd : s.draggedBox = some target) (he : s.editingBox = none) :
    ∀ b ∈ (interactiveStep i boxes s).2, b.id = target →
      b.x = i.cursor.x - s.dragOffset.x ∧ b.y = i.cursor.y - s.dragOffset.y := by
  intro b hb hid
  simp only [interactiveStep, hh, Bool.not_true, Bool.false_eq_true, if_false,
    hd, he] at hb
  exact drag_map_mem hb hid

/-- A frame with the fist held (no rising edge) keeps the drag session, the
absent edit session and the grab offset unchanged. -/
lemma interactiveStep_keeps_drag (i : IInput) (boxes : List Box) (s : IState)
    (target : ℕ) (hh : i.handDetected = true) (hf : i.fist = true)
    (hl : s.lastFist = true) (hd : s.draggedBox = some target)
    (he : s.editingBox = none) :
    (interactiveStep i boxes s).1.draggedBox = some target ∧
    (interactiveStep i boxes s).1.editingBox = none ∧
    (interactiveStep i boxes s).1.lastFist = true ∧
    (interactiveStep i boxes s).1.dragOffset = s.dragOffset := by
  simp [interactiveStep, hh, hf, hl, hd, he]

/-! ## Claim theorems -/

/-- Claim C9: on every frame with no hand observed, the pointer callback is
invoked with the literal position (0, 0) together with visible = false. -/
theorem null_frame_reports_origin (W H : ℚ) (g : Bool) (s : CState) :
    (cursorStep W H none g s).2.pos = ⟨0, 0⟩ ∧
    (cursorStep W H none g s).2.posVisible = false :=
  ⟨rfl, rfl⟩

/-- Claim C7: a null update marks the cursor invisible, empties the raw
sample buffer and leaves the persisted smoothed position unchanged, so the
first reappearance frame smooths from the pre-loss position — its emitted
position is preLoss + 0.3 * (raw − preLoss) in each coordinate — rather
than from the origin. -/
theorem stabilizer_retains_position_on_loss (W H : ℚ) (g g2 : Bool)
    (s : CState) (hand : CHand) :
    (cursorStep W H none g s).1.visible = false ∧
    (cursorStep W H none g s).1.buffer = [] ∧
    (cursorStep W H none g s).1.cursorPos = s.cursorPos ∧
    (cursorStep W H (some hand) g2 (cursorStep W H none g s).1).2.pos =
      ⟨s.cursorPos.x + ((1 - hand.tipX) * W - s.cursorPos.x) * SMOOTHING,
       s.cursorPos.y + (hand.tipY * H - s.cursorPos.y) * SMOOTHING⟩ := by
  refine ⟨rfl, rfl, rfl, ?_⟩
  simp [cursorStep, BUFFER_SIZE]

/-- Claim C8: the hit test accepts exactly the points inside the inclusive
axis-aligned bounds on all four sides, and hover resolution over a target
list returns the first declared target containing the pointer even when
later targets also contain it. -/
theorem hit_test_inclusive_first_match :
    (∀ (p : Pt) (r : Rect),
        inRect p r = true ↔
          r.x ≤ p.x ∧ p.x ≤ r.x + r.width ∧ r.y ≤ p.y ∧ p.y ≤ r.y + r.height) ∧
    (∀ (pre post : List Button) (b : Button) (i : DInput),
        i.handDetected = true →
        (∀ b2 ∈ pre, inRect i.cursor b2.toRect = false) →
        inRect i.cursor b.toRect = true →
        demoHover (pre ++ b :: post) i = some b) := by
  constructor
  · intro p r
    simp [inRect, and_assoc]
  · intro pre post b i hh hpre hb
    induction pre with
    | nil =>
        simp [demoHover, hh, List.find?_cons, hb]
    | cons a t ih =>
        have ha : inRect i.cursor a.toRect = false :=
          hpre a (List.mem_cons_self a t)
        have ht : ∀ b2 ∈ t, inRect i.cursor b2.toRect = false :=
          fun b2 hm => hpre b2 (List.mem_cons_of_mem a hm)
        have := ih ht
        simp only [demoHover, hh, if_true, List.cons_append] at this ⊢
        rw [List.find?_cons, ha]
        simpa using this

/-- Claim C3 (as amended covers no states; this is the claim itself): during
an active drag session every frame writes the dragged box's position as the
current pointer minus the grab offset recorded at engage time, and over any
sequence of frames that keep the drag alive the final position equals the
last pointer minus the original offset exactly — no drift accumulates. -/
theorem drag_tracks_pointer_absolutely :
    (∀ (i : IInput) (boxes : List Box) (s : IState) (target : ℕ),
        i.handDetected = true → s.draggedBox = some target →
        s.editingBox = none →
        ∀ b ∈ (interactiveStep i boxes s).2, b.id = target →
          b.x = i.cursor.x - s.dragOffset.x ∧
          b.y = i.cursor.y - s.dragOffset.y) ∧
    (∀ (frames : List IInput) (f : IInput) (boxes : List Box) (s : IState)
        (target : ℕ),
        s.draggedBox = some target → s.editingBox = none → s.lastFist = true →
        (∀ g ∈ frames ++ [f], g.handDetected = true ∧ g.fist = true) →
        ∀ b ∈ (interactiveRun (frames ++ [f]) boxes s).2, b.id = target →
          b.x = f.cursor.x - s.dragOffset.x ∧
          b.y = f.cursor.y - s.dragOffset.y) := by
  constructor
  · intro i boxes s target hh hd he
    exact interactiveStep_drag_pos i boxes s target hh hd he
  · intro frames
    induction frames with
    | nil =>
        intro f boxes s target hd he hl hall
        have hf := hall f (by simp)
        simp only [List.nil_append, interactiveRun]
        exact interactiveStep_drag_pos f boxes s target hf.1 hd he
    | cons a rest ih =>
        intro f boxes s target hd he hl hall
        have ha := hall a (by simp)
        have hkeep := interactiveStep_keeps_drag a boxes s target ha.1 ha.2 hl hd he
        have hrest : ∀ g ∈ rest ++ [f], g.handDetected = true ∧ g.fist = true :=
          fun g hm => hall g (by simp [hm])
        have := ih f (interactiveStep a boxes s).2 (interactiveStep a boxes s).1
          target hkeep.1 hkeep.2.1 hkeep.2.2.1 hrest
        simp only [List.cons_append, interactiveRun]
        intro b hb hid
        have hres := this b hb hid
        rwa [hkeep.2.2.2] at hres

/-- Witness for C3: with box 1 grabbed at offset (10, 20) and the cursor at
(110, 120), the frame writes the box to (100, 100). -/
theorem drag_tracks_pointer_absolutely_witness :
    draggedResultBox.x = dragInput.cursor.x - dragS.dragOffset.x ∧
    draggedResultBox.y = dragInput.cursor.y - dragS.dragOffset.y :=
  drag_tracks_pointer_absolutely.1 dragInput testBoxes dragS 1 rfl rfl rfl
    draggedResultBox
    (by
      have hv : (interactiveStep dragInput testBoxes dragS).2 = [draggedResultBox] := by
        norm_num [interactiveStep, dragInput, testBoxes, dragS, draggedResultBox]
      rw [hv]
      exact List.mem_singleton.mpr rfl)
    rfl

/-- Claim C5: the classifier's pinch strength is non-increasing in the
z-weighted thumb-to-index distance, is exactly 0 at or beyond the 0.08
threshold, is 1 at distance 0, and always lies in the interval from 0 to 1. -/
theorem pinch_strength_monotone_clamped (h1 h2 : HandData) :
    (pinchDistance h1 ≤ pinchDistance h2 →
      (detectPinchGesture h2).pinchStrength ≤ (detectPinchGesture h1).pinchStrength) ∧
    (PINCH_DIST ≤ pinchDistance h1 → (detectPinchGesture h1).pinchStrength = 0) ∧
    (pinchDistance h1 = 0 → (detectPinchGesture h1).pinchStrength = 1) ∧
    (0 ≤ (detectPinchGesture h1).pinchStrength ∧
      (detectPinchGesture h1).pinchStrength ≤ 1) := by
  have hp : (0:ℝ) < PINCH_DIST := by norm_num [PINCH_DIST]
  simp only [detectPinchGesture]
  refine ⟨?_, ?_, ?_, le_max_left _ _, max_le (by norm_num) (min_le_left _ _)⟩
  · intro hle
    have hdiv : pinchDistance h1 / PINCH_DIST ≤ pinchDistance h2 / PINCH_DIST :=
      (div_le_div_iff_of_pos_right hp).mpr hle
    have hsub : 1 - pinchDistance h2 / PINCH_DIST ≤ 1 - pinchDistance h1 / PINCH_DIST := by
      linarith
    exact max_le_max le_rfl (min_le_min le_rfl hsub)
  · intro hge
    have hx : (1:ℝ) ≤ pinchDistance h1 / PINCH_DIST := (one_le_div hp).mpr hge
    rw [min_eq_right (by linarith : 1 - pinchDistance h1 / PINCH_DIST ≤ 1)]
    exact max_eq_left (by linarith)
  · intro h0
    rw [h0]
    norm_num

/-- Witness for C5: the coincident-tips hand has distance 0 and strength 1;
the 0.1-apart hand is beyond the threshold and has strength exactly 0, which
is at most the strength of the closer hand. -/
theorem pinch_strength_monotone_clamped_witness :
    pinchDistance hNear ≤ pinchDistance hFar ∧
    (detectPinchGesture hFar).pinchStrength ≤ (detectPinchGesture hNear).pinchStrength ∧
    (detectPinchGesture hFar).pinchStrength = 0 ∧
    (detectPinchGesture hNear).pinchStrength = 1 := by
  have hle : pinchDistance hNear ≤ pinchDistance hFar := by
    rw [pinchDistance_hNear, pinchDistance_hFar]
    norm_num
  refine ⟨hle, (pinch_strength_monotone_clamped hNear hFar).1 hle, ?_, ?_⟩
  · exact (pinch_strength_monotone_clamped hFar hFar).2.1
      (by rw [pinchDistance_hFar]; norm_num [PINCH_DIST])
  · exact (pinch_strength_monotone_clamped hNear hNear).2.2.1 pinchDistance_hNear

/-- Claim C6: the classifier reports a fist exactly when at least 3 of the 4
non-thumb fingers are curled, a finger counting as curled exactly when its
tip-to-wrist over knuckle-to-wrist distance ratio is strictly below 1.3. -/
theorem fist_iff_three_of_four_curled (h : HandData) :
    (detectPinchGesture h).isFist ↔ 3 ≤ specCurledCount h := by
  have hdef : (detectPinchGesture h).isFist = (MIN_CURLED ≤ curledCount h) := rfl
  rw [hdef, curledCount_eq_spec]
  exact Iff.rfl

/-- Witness for C6: on the all-curled hand the equivalence is inhabited on
both sides (the spec-side count is 4). -/
theorem fist_iff_three_of_four_curled_witness :
    ((detectPinchGesture hBoth).isFist ↔ 3 ≤ specCurledCount hBoth) ∧
    (detectPinchGesture hBoth).isFist :=
  ⟨fist_iff_three_of_four_curled hBoth,
   (fist_iff_three_of_four_curled hBoth).mpr
     (by rw [specCurledCount_hBoth]; norm_num)⟩

/-- Claim C10: the fist detector has no zero-denominator guard, but under
the JavaScript semantics of the division a finger whose MCP knuckle
coincides with the wrist has a degenerate extension quotient (`NaN` or
`+Infinity`) that fails the strict comparison, so that finger counts as not
curled; the classifier is a total function on 21-keypoint observations. -/
theorem degenerate_knuckle_not_curled (h : HandData) (i : Fin 4)
    (hm : h.landmarks (mcpIdx i) = h.landmarks 0) :
    distToWrist (h.landmarks (mcpIdx i)) (h.landmarks 0) = 0 ∧
    ¬ fingerCurled h i := by
  have hz : distToWrist (h.landmarks (mcpIdx i)) (h.landmarks 0) = 0 := by
    rw [hm, distToWrist]
    simp
  refine ⟨hz, ?_⟩
  intro hc
  exact hc.1 hz

/-- Witness for C10: the hand whose index MCP coincides with the wrist has a
zero knuckle distance and an uncurled index finger. -/
theorem degenerate_knuckle_not_curled_witness :
    distToWrist (hDegen.landmarks (mcpIdx 0)) (hDegen.landmarks 0) = 0 ∧
    ¬ fingerCurled hDegen 0 :=
  degenerate_knuckle_not_curled hDegen 0 (by
    have h5 : hDegen.landmarks (mcpIdx 0) = ⟨0, 0, none⟩ := by
      simp only [hDegen]
      rw [if_pos (by decide)]
    have h0 : hDegen.landmarks 0 = ⟨0, 0, none⟩ := by
      simp only [hDegen]
      rw [if_pos (by decide)]
    rw [h5, h0])

/-- Witness for C8: with the far button declared first, the hover over the
point contained in both overlapping buttons resolves to the earlier declared
one, and the later one also contains the point. -/
theorem hit_test_inclusive_first_match_witness :
    demoHover ([btnA] ++ btnB :: [btnC]) overlapInput = some btnB ∧
    inRect overlapInput.cursor btnC.toRect = true := by
  constructor
  · refine hit_test_inclusive_first_match.2 [btnA] [btnC] btnB overlapInput rfl ?_ ?_
    · intro b2 hm
      rw [List.mem_singleton.mp hm]
      simp only [inRect, btnA, overlapInput, Button.toRect]
      norm_num
    · simp only [inRect, btnB, overlapInput, Button.toRect]
      norm_num
  · simp only [inRect, btnC, overlapInput, Button.toRect]
    norm_num

/-- Claim C1 counterexample: on a frame where the classifier reports both
pinch and fist (the hand `hBoth`), `DrawingCanvas` — which receives only the
pinch boolean — still starts a stroke on the pinch rising edge and still
fires a hovered toolbar action: fist does not suppress pinch in this
consumer. -/
theorem fist_precedence_cex :
    (detectPinchGesture hBoth).isPinching ∧
    (detectPinchGesture hBoth).isFist ∧
    (drawStep pinchFrame drawInit).isDrawing = true ∧
    (drawStep pinchFrame drawInit).currentStroke = [⟨100, 100, "#FF6B6B", 5⟩] ∧
    (toolbarStep clearHoverFrame drawInit).2 = some ToolAction.clearAll := by
  refine ⟨?_, ?_, rfl, rfl, rfl⟩
  · show pinchDistance hBoth < PINCH_DIST
    rw [pinchDistance_hBoth]
    norm_num [PINCH_DIST]
  · show MIN_CURLED ≤ curledCount hBoth
    rw [curledCount_eq_spec, specCurledCount_hBoth]
    norm_num [MIN_CURLED]

/-- Claim C1 amended: a simultaneous fist suppresses the pinch-driven click
of `DemoButtons` and the pinch-driven hold-to-edit arming of
`InteractiveElements`, but `DrawingCanvas` never receives the fist boolean,
so its toolbar actions and stroke starts fire on pinch regardless of fist. -/
theorem fist_suppresses_clicks_and_edit :
    (∀ (buttons : List Button) (i : DInput) (s : DState),
        i.fist = true → (demoStep buttons i s).2 = none) ∧
    (∀ (i : IInput) (boxes : List Box) (s : IState),
        i.fist = true →
        (interactiveStep i boxes s).1.pinchTimer = s.pinchTimer ∨
        (interactiveStep i boxes s).1.pinchTimer = none) := by
  constructor
  · intro buttons i s hf
    rcases hm : demoHover buttons i with _ | b <;> simp [demoStep, hm, hf]
  · intro i boxes s hf
    cases hh : i.handDetected
    · right
      simp [interactiveStep, hh]
    · simp only [interactiveStep, hh, hf, Bool.not_true, Bool.and_false,
        Bool.false_eq_true, if_false]
      split_ifs <;> simp

/-- Witness for C1 (amended): a pinch rising edge carrying a fist neither
clicks demo button 1 nor arms the hold-to-edit timer on the hovered note. -/
theorem fist_suppresses_clicks_and_edit_witness :
    (demoStep demoButtons fistFrameD dInit).2 = none ∧
    ((interactiveStep fistFrameI testBoxes dragS).1.pinchTimer = dragS.pinchTimer ∨
     (interactiveStep fistFrameI testBoxes dragS).1.pinchTimer = none) :=
  ⟨fist_suppresses_clicks_and_edit.1 demoButtons fistFrameD dInit rfl,
   fist_suppresses_clicks_and_edit.2 fistFrameI testBoxes dragS rfl⟩

/-- Claim C2 counterexample: a pinch engage that captures a single sample
followed by a release commits a one-point stroke to the canvas's stroke
list — the commit guard is buffer nonemptiness, not two points. -/
theorem single_point_stroke_committed_cex :
    (drawRun [pinchFrame, releaseFrame] drawInit).strokes =
      [⟨[⟨100, 100, "#FF6B6B", 5⟩], "#FF6B6B", 5⟩] := rfl

/-- Claim C2 amended: when a drawing session ends (pinch falling edge, hand
loss or drawing-mode exit while drawing), the in-progress points are
committed as one stroke exactly when the buffer is nonempty — a one-point
buffer is committed too, though the renderer never draws strokes with fewer
than 2 points — and the buffer is cleared and drawing stops in either
case. -/
theorem stroke_commit_on_session_end (i : DrawInput) (s : DrawState)
    (hdraw : s.isDrawing = true)
    (hend : (i.drawingMode = true ∧ i.handDetected = true ∧
             i.pinching = false ∧ s.lastPinch = true) ∨
            i.drawingMode = false ∨ i.handDetected = false) :
    (s.currentStroke ≠ [] →
      (drawStep i s).strokes =
        s.strokes ++ [⟨s.currentStroke, s.brushColor, s.brushSize⟩]) ∧
    (s.currentStroke = [] → (drawStep i s).strokes = s.strokes) ∧
    (drawStep i s).currentStroke = [] ∧
    (drawStep i s).isDrawing = false ∧
    (∀ st : DrawStroke, st.points.length < 2 → strokeRendered st = false) := by
  have hrend : ∀ st : DrawStroke, st.points.length < 2 → strokeRendered st = false := by
    intro st hlt
    simp only [strokeRendered, decide_eq_false_iff_not]
    omega
  have hlen : s.currentStroke ≠ [] → decide (0 < s.currentStroke.length) = true :=
    fun hne => by simpa using List.length_pos.mpr hne
  rcases hend with ⟨hm, hh, hp, hl⟩ | hout
  · refine ⟨fun hne => ?_, fun he => ?_, ?_, ?_, hrend⟩
    · simp [drawStep, hm, hh, hp, hl, hdraw, hlen hne]
    · simp [drawStep, hm, hh, hp, hl, hdraw, he]
    · by_cases he : s.currentStroke = []
      · simp [drawStep, hm, hh, hp, hl, hdraw, he]
      · simp [drawStep, hm, hh, hp, hl, hdraw, hlen he]
    · simp [drawStep, hm, hh, hp, hl, hdraw]
  · have hcond : (!i.drawingMode || !i.handDetected) = true := by
      rcases hout with hm2 | hh2
      · simp [hm2]
      · simp [hh2]
    refine ⟨fun hne => ?_, fun he => ?_, ?_, ?_, hrend⟩
    · simp [drawStep, hcond, hdraw, hlen hne]
    · simp [drawStep, hcond, hdraw, he]
    · by_cases he : s.currentStroke = []
      · simp [drawStep, hcond, hdraw, he]
      · simp [drawStep, hcond, hdraw, hlen he]
    · by_cases he : s.currentStroke = []
      · simp [drawStep, hcond, hdraw, he]
      · simp [drawStep, hcond, hdraw, hlen he]


/-- Witness for C2 (amended): releasing the pinch on the one-point session
commits the single point as a stroke and clears the buffer. -/
theorem stroke_commit_on_session_end_witness :
    (drawStep releaseFrame sOnePoint).strokes =
      sOnePoint.strokes ++
        [⟨sOnePoint.currentStroke, sOnePoint.brushColor, sOnePoint.brushSize⟩] ∧
    (drawStep releaseFrame sOnePoint).currentStroke = [] ∧
    (drawStep releaseFrame sOnePoint).isDrawing = false :=
  have h := stroke_commit_on_session_end releaseFrame sOnePoint rfl
    (Or.inl ⟨rfl, rfl, rfl, rfl⟩)
  ⟨h.1 (by simp [sOnePoint]), h.2.2.1, h.2.2.2.1⟩

/-- Explicit form of a successful click frame: a pinch rising edge over a
hovered target that is not in cooldown and carries no fist. -/
lemma demoStep_clicks (buttons : List Button) (i : DInput) (s : DState)
    (b : Button) (hm : demoHover buttons i = some b) (hp : i.pinching = true)
    (hl : s.lastPinch = false) (hc : s.cooldown b.id = false)
    (hf : i.fist = false) :
    demoStep buttons i s =
      ({ lastPinch := i.pinching,
         cooldown := fun u => if u = b.id then true else s.cooldown u },
       some b.id) := by
  simp [demoStep, hm, hp, hl, hc, hf]

/-- Runs decompose over list concatenation. -/
lemma demoRun_append (buttons : List Button) (xs ys : List DEvent) (s : DState) :
    demoRun buttons (xs ++ ys) s =
      ((demoRun buttons ys (demoRun buttons xs s).1).1,
       (demoRun buttons xs s).2 ++ (demoRun buttons ys (demoRun buttons xs s).1).2) := by
  induction xs generalizing s with
  | nil => simp [demoRun]
  | cons e rest ih =>
      simp only [List.cons_append, demoRun, List.append_eq]
      rw [ih]
      simp [List.append_assoc]

/-- While a target's cooldown is latched, any event sequence free of that
target's cooldown-clear timer produces no click on it and leaves the latch
set. -/
lemma demoRun_cooldown_latched (buttons : List Button) (evs : List DEvent)
    (s : DState) (t : String) (hc : s.cooldown t = true)
    (hev : ∀ e ∈ evs, e ≠ DEvent.fire t) :
    (demoRun buttons evs s).2.count t = 0 ∧
    (demoRun buttons evs s).1.cooldown t = true := by
  induction evs generalizing s with
  | nil => simp [demoRun, hc]
  | cons e rest ih =>
      have hrest : ∀ x ∈ rest, x ≠ DEvent.fire t :=
        fun x hmem => hev x (List.mem_cons_of_mem e hmem)
      cases e with
      | fire u =>
          have hu : t ≠ u := by
            intro hEq
            exact hev (DEvent.fire u) (List.mem_cons_self _ _) (by rw [hEq])
          have hnext := ih
            (s := { s with cooldown := fun v => if v = u then false else s.cooldown v })
            (by simp [hu, hc]) hrest
          simpa [demoRun, demoApply] using hnext
      | frame i =>
          rcases hm : demoHover buttons i with _ | b
          · have hnext := ih (s := { s with lastPinch := i.pinching }) hc hrest
            simpa [demoRun, demoApply, demoStep, hm] using hnext
          · by_cases hcl :
              (i.pinching && !s.lastPinch && !s.cooldown b.id && !i.fist) = true
            · have hbid : s.cooldown b.id = false := by
                by_contra hne
                have htrue : s.cooldown b.id = true := by
                  cases hx : s.cooldown b.id
                  · exact absurd hx hne
                  · rfl
                simp [htrue] at hcl
              have hbt : ¬(b.id = t) := by
                intro hEq
                rw [hEq, hc] at hbid
                cases hbid
              have hnext := ih
                (s := { lastPinch := i.pinching,
                        cooldown := fun u => if u = b.id then true else s.cooldown u })
                (by simp [hc]) hrest
              simp only [demoRun, demoApply, demoStep, hm, hcl, if_true]
              refine ⟨?_, hnext.2⟩
              simpa [List.count_cons, hbt] using hnext.1
            · have hnext := ih (s := { s with lastPinch := i.pinching }) hc hrest
              simpa [demoRun, demoApply, demoStep, hm, hcl] using hnext

/-- A quiet stretch — events that are neither the watched target's
cooldown-clear timer nor a pinching frame — emits no click, leaves the
watched cooldown unchanged, and leaves the pinch memory false as soon as it
holds at least one frame. -/
lemma demoRun_quiet (buttons : List Button) (evs : List DEvent) (s : DState)
    (t : String)
    (hev : ∀ e ∈ evs, e ≠ DEvent.fire t ∧
      ∀ f, e = DEvent.frame f → f.pinching = false) :
    (demoRun buttons evs s).2 = [] ∧
    (demoRun buttons evs s).1.cooldown t = s.cooldown t ∧
    (demoRun buttons evs s).1.lastPinch =
      (if evs.any DEvent.isFrame then false else s.lastPinch) := by
  induction evs generalizing s with
  | nil => simp [demoRun]
  | cons e rest ih =>
      have he := hev e (List.mem_cons_self _ _)
      have hrest : ∀ x ∈ rest, x ≠ DEvent.fire t ∧
          ∀ f, x = DEvent.frame f → f.pinching = false :=
        fun x hmem => hev x (List.mem_cons_of_mem e hmem)
      cases e with
      | fire u =>
          have hu : t ≠ u := by
            intro hEq
            exact he.1 (by rw [hEq])
          have hnext := ih
            (s := { s with cooldown := fun v => if v = u then false else s.cooldown v })
            hrest
          refine ⟨?_, ?_, ?_⟩
          · simpa [demoRun, demoApply] using hnext.1
          · have h2 := hnext.2.1
            simp only [demoRun, demoApply] at h2 ⊢
            rw [h2]
            simp [hu]
          · have h3 := hnext.2.2
            simp only [demoRun, demoApply, List.any_cons] at h3 ⊢
            simpa [DEvent.isFrame] using h3
      | frame i =>
          have hpin : i.pinching = false := he.2 i rfl
          have step_eq : demoStep buttons i s = ({ s with lastPinch := i.pinching }, none) := by
            rcases hm : demoHover buttons i with _ | b
            · simp [demoStep, hm]
            · simp [demoStep, hm, hpin]
          have hnext := ih (s := { s with lastPinch := i.pinching }) hrest
          refine ⟨?_, ?_, ?_⟩
          · simpa [demoRun, demoApply, step_eq] using hnext.1
          · have h2 := hnext.2.1
            simp only [demoRun, demoApply, step_eq] at h2 ⊢
            exact h2
          · have h3 := hnext.2.2
            simp only [demoRun, demoApply, step_eq, List.any_cons] at h3 ⊢
            simp only [DEvent.isFrame, Bool.true_or, if_true]
            rw [h3]
            cases hany : rest.any DEvent.isFrame <;> simp [hany, hpin]

/-- Claim C4: per-target click cooldown.  (1) A rising-edge click on a
target latches its cooldown, and any following events that do not include
that target's cooldown-clear timer — in particular a second rising edge
within the ~500ms window — leave exactly the one click on it.  (2) When the
target's cooldown timer fires between two rising edges (pinch released in
between), the second edge clicks again: exactly two clicks.  (3) The latch
is per target: while one target is in cooldown, a rising edge over a
different, cooled-down target clicks it immediately. -/
theorem click_cooldown_per_target :
    (∀ (s : DState) (e1 : DInput) (mid : List DEvent) (b : Button),
        demoHover demoButtons e1 = some b →
        e1.pinching = true → s.lastPinch = false → s.cooldown b.id = false →
        e1.fist = false →
        (∀ e ∈ mid, e ≠ DEvent.fire b.id) →
        (demoRun demoButtons (DEvent.frame e1 :: mid) s).2.count b.id = 1) ∧
    (∀ (s : DState) (e1 e2 : DInput) (ma mb : List DEvent) (b b2 : Button),
        demoHover demoButtons e1 = some b →
        e1.pinching = true → s.lastPinch = false → s.cooldown b.id = false →
        e1.fist = false →
        (∀ e ∈ ma, e ≠ DEvent.fire b.id) →
        (∀ e ∈ mb, e ≠ DEvent.fire b.id ∧
          ∀ f, e = DEvent.frame f → f.pinching = false) →
        mb.any DEvent.isFrame = true →
        demoHover demoButtons e2 = some b2 → b2.id = b.id →
        e2.pinching = true → e2.fist = false →
        (demoRun demoButtons
            ([DEvent.frame e1] ++ (ma ++ ([DEvent.fire b.id] ++
              (mb ++ [DEvent.frame e2])))) s).2.count b.id = 2) ∧
    (∀ (i : DInput) (s : DState) (b : Button) (t : String),
        demoHover demoButtons i = some b → b.id ≠ t → s.cooldown t = true →
        i.pinching = true → s.lastPinch = false → s.cooldown b.id = false →
        i.fist = false →
        (demoStep demoButtons i s).2 = some b.id) := by
  refine ⟨?_, ?_, ?_⟩
  · intro s e1 mid b hm hp hl hc hf hmid
    have hstep := demoStep_clicks demoButtons e1 s b hm hp hl hc hf
    simp only [demoRun, demoApply, hstep]
    have hA := demoRun_cooldown_latched demoButtons mid
      { lastPinch := e1.pinching,
        cooldown := fun u => if u = b.id then true else s.cooldown u }
      b.id (by simp) hmid
    simp [List.count_cons]
    simpa using hA.1
  · intro s e1 e2 ma mb b b2 hm1 hp1 hl1 hc1 hf1 hma hmb hanyf hm2 hb2 hp2 hf2
    have hstep := demoStep_clicks demoButtons e1 s b hm1 hp1 hl1 hc1 hf1
    set s1 : DState :=
      { lastPinch := e1.pinching,
        cooldown := fun u => if u = b.id then true else s.cooldown u } with hs1
    have run1 : demoRun demoButtons [DEvent.frame e1] s = (s1, [b.id]) := by
      simp [demoRun, demoApply, hstep, hs1]
    have hA := demoRun_cooldown_latched demoButtons ma s1 b.id (by simp [hs1]) hma
    set s2 : DState := (demoRun demoButtons ma s1).1 with hs2
    set s3 : DState :=
      { s2 with cooldown := fun v => if v = b.id then false else s2.cooldown v }
      with hs3
    have run3 : demoRun demoButtons [DEvent.fire b.id] s2 = (s3, []) := by
      simp [demoRun, demoApply, hs3]
    have hc3 : s3.cooldown b.id = false := by simp [hs3]
    have hB := demoRun_quiet demoButtons mb s3 b.id hmb
    set s4 : DState := (demoRun demoButtons mb s3).1 with hs4
    have hl4 : s4.lastPinch = false := by
      rw [hs4, hB.2.2, hanyf]
      rfl
    have hc4 : s4.cooldown b2.id = false := by
      rw [hb2, hs4, hB.2.1]
      exact hc3
    have hstep2 := demoStep_clicks demoButtons e2 s4 b2 hm2 hp2 hl4 hc4 hf2
    have run5 : (demoRun demoButtons [DEvent.frame e2] s4).2 = [b2.id] := by
      simp [demoRun, demoApply, hstep2]
    have main : (demoRun demoButtons
        ([DEvent.frame e1] ++ (ma ++ ([DEvent.fire b.id] ++
          (mb ++ [DEvent.frame e2])))) s).2 =
        [b.id] ++ ((demoRun demoButtons ma s1).2 ++ ([] ++
          ((demoRun demoButtons mb s3).2 ++
            (demoRun demoButtons [DEvent.frame e2] s4).2))) := by
      rw [demoRun_append demoButtons [DEvent.frame e1] _ s, run1]
      rw [demoRun_append demoButtons ma _ s1, ← hs2]
      rw [demoRun_append demoButtons [DEvent.fire b.id] _ s2, run3]
      rw [demoRun_append demoButtons mb _ s3, ← hs4]
    rw [main, run5]
    simp [List.count_append, List.count_cons, hA.1, hB.1, hb2]
  · intro i s b t hm hbt hct hp hl hcb hf
    rw [demoStep_clicks demoButtons i s b hm hp hl hcb hf]

/-- The hover resolution of the rising-edge frame over button 1. -/
lemma demoHover_edgeOverB1 : demoHover demoButtons edgeOverB1 = some btn1 := by
  have hin : inRect edgeOverB1.cursor btn1.toRect = true := by
    simp only [inRect, edgeOverB1, btn1, Button.toRect]
    norm_num
  have hh : edgeOverB1.handDetected = true := rfl
  simp only [demoHover, hh, if_true]
  rw [show demoButtons = btn1 :: [⟨"2", 50, 250, 160, 80, "clear-all"⟩,
      ⟨"3", 50, 350, 160, 80, "random-colors"⟩,
      ⟨"4", 50, 450, 160, 80, "toggle-draw"⟩] from rfl]
  rw [List.find?_cons, hin]

/-- Witness for C4: on the declared demo buttons, an edge-release-edge burst
over button 1 with no intervening timer yields one click; the same burst
with the cooldown timer firing between the edges yields two; and a rising
edge over button 1 fires even while button 2 is in cooldown. -/
theorem click_cooldown_per_target_witness :
    (demoRun demoButtons
        (DEvent.frame edgeOverB1 ::
          [DEvent.frame releaseOverB1, DEvent.frame edgeOverB1])
        dInit).2.count btn1.id = 1 ∧
    (demoRun demoButtons
        ([DEvent.frame edgeOverB1] ++ ([] ++ ([DEvent.fire btn1.id] ++
          ([DEvent.frame releaseOverB1] ++ [DEvent.frame edgeOverB1]))))
        dInit).2.count btn1.id = 2 ∧
    (demoStep demoButtons edgeOverB1 cool2).2 = some btn1.id := by
  refine ⟨?_, ?_, ?_⟩
  · refine click_cooldown_per_target.1 dInit edgeOverB1
      [DEvent.frame releaseOverB1, DEvent.frame edgeOverB1] btn1
      demoHover_edgeOverB1 rfl rfl rfl rfl ?_
    intro e he
    fin_cases he <;> exact fun h => DEvent.noConfusion h
  · refine click_cooldown_per_target.2.1 dInit edgeOverB1 edgeOverB1
      [] [DEvent.frame releaseOverB1] btn1 btn1
      demoHover_edgeOverB1 rfl rfl rfl rfl (by intro e he; cases he) ?_ rfl
      demoHover_edgeOverB1 rfl rfl rfl
    intro e he
    fin_cases he
    refine ⟨fun h => DEvent.noConfusion h, ?_⟩
    intro f hf
    cases DEvent.frame.inj hf
    rfl
  · exact click_cooldown_per_target.2.2 edgeOverB1 cool2 btn1 "2"
      demoHover_edgeOverB1 (by decide) rfl rfl rfl rfl rfl

end CameraHandApp
